import Mathlib

/-!
Verification of the bigcam / big-digicam camera orchestration core.

This file shallowly embeds the data model and the operations of the
repository's backend-abstraction and streaming-session code and proves the
specification claims about them.  Each definition is translated from one
Python function of the repository (named in its doc comment).  External
effects (subprocess results, process-table queries, GStreamer outcomes) are
passed in as explicit oracle parameters; mutable state that a function
updates is returned explicitly.
-/

namespace Bigcam

/-- `constants.BackendType` enum. -/
inductive BackendType
  | v4l2
  | gphoto2
  | libcamera
  | pipewire
  | ip
  deriving DecidableEq, Repr

/-- `constants.ControlCategory` enum. -/
inductive ControlCategory
  | image
  | exposure
  | focus
  | whiteBalance
  | capture
  | status
  | advanced
  deriving DecidableEq, Repr

/-- `constants.ControlType` enum. -/
inductive ControlType
  | integer
  | boolean
  | menu
  | button
  | string
  deriving DecidableEq, Repr

/-- A Python `Any` control value as the backends use it (ints for V4L2,
strings for gPhoto2, bools). -/
inductive CtrlValue
  | intVal (i : Int)
  | strVal (s : String)
  | boolVal (b : Bool)
  deriving DecidableEq, Repr

/-- `core.camera_backend.CameraControl` dataclass.  Frame rates and numeric
bounds are as in the source; `value`/`default` are `Any` in Python and are
modelled by `CtrlValue`. -/
structure CameraControl where
  id : String
  name : String
  category : ControlCategory
  controlType : ControlType
  value : CtrlValue
  default : CtrlValue
  minimum : Option Int := none
  maximum : Option Int := none
  step : Int := 1
  choices : Option (List String) := none
  flags : String := ""
  deriving DecidableEq, Repr

/-- `core.camera_backend.VideoFormat` dataclass.  Python stores `fps` as a
list of floats parsed from non-negative decimal literals; rationals model
them exactly for the comparisons the code performs. -/
structure VideoFormat where
  width : Nat
  height : Nat
  fps : List ℚ
  pixelFormat : String
  description : String := ""
  deriving DecidableEq, Repr

/-- `core.camera_backend.CameraInfo` dataclass.  `extra` is an open
string-keyed bag; the claims only ever store string values in it. -/
structure CameraInfo where
  id : String
  name : String
  backend : BackendType
  devicePath : String
  capabilities : List String := []
  formats : List VideoFormat := []
  isVirtual : Bool := false
  extra : List (String × String) := []
  deriving DecidableEq, Repr

/-! ## C1: merged detection list, deduplicated by id
(`big-digicam/core/camera_manager.py`, `CameraManager.detect_cameras_async`)

The `_worker` closure iterates the registered backends in registration
order, skips the IP backend, and folds each backend's `detect_cameras()`
result (or exception) into `all_cameras`, guarded by the `seen_ids` set.
A backend's outcome is modelled as `Except String (List CameraInfo)`. -/

/-- The inner `for cam in found` loop of `_worker`: appends each camera whose
id is not yet in `seen_ids`, adding its id to the set.  The set is modelled
as a list of ids. -/
def addCameras (seen : List String) (acc : List CameraInfo) :
    List CameraInfo → List String × List CameraInfo
  | [] => (seen, acc)
  | cam :: rest =>
    if cam.id ∈ seen then addCameras seen acc rest
    else addCameras (cam.id :: seen) (acc ++ [cam]) rest

/-- The backend loop of `_worker`: skips the IP backend, collects error
messages from raising backends, merges the rest through `addCameras`. -/
def detectWorkerAux :
    List (BackendType × Except String (List CameraInfo)) →
    List String → List CameraInfo → List String →
    List CameraInfo × List String
  | [], _seen, acc, errs => (acc, errs)
  | (bt, res) :: rest, seen, acc, errs =>
    if bt = BackendType.ip then detectWorkerAux rest seen acc errs
    else
      match res with
      | .error e => detectWorkerAux rest seen acc (errs ++ [e])
      | .ok found =>
        let p := addCameras seen acc found
        detectWorkerAux rest p.1 p.2 errs

/-- `CameraManager.detect_cameras_async`'s `_worker`: the merged camera list
that `_on_detection_done` publishes, and the error events emitted. -/
def detectCamerasWorker (backends : List (BackendType × Except String (List CameraInfo))) :
    List CameraInfo × List String :=
  detectWorkerAux backends [] [] []

/-- The raw concatenation of every non-IP backend's successful detection
output, in registration order — the stream of cameras `_worker` looks at. -/
def flattenDetections :
    List (BackendType × Except String (List CameraInfo)) → List CameraInfo
  | [] => []
  | (bt, res) :: rest =>
    (if bt = BackendType.ip then []
     else match res with
      | .ok l => l
      | .error _ => []) ++ flattenDetections rest

/-- Reference first-occurrence filter: keeps a camera iff its id is neither
in `seen` nor on an earlier kept camera. -/
def dedupFrom (seen : List String) : List CameraInfo → List CameraInfo
  | [] => []
  | cam :: rest =>
    if cam.id ∈ seen then dedupFrom seen rest
    else cam :: dedupFrom (cam.id :: seen) rest

/-- Ids recorded after scanning a list, starting from `seen`. -/
def seenAfter (seen : List String) : List CameraInfo → List String
  | [] => seen
  | cam :: rest =>
    if cam.id ∈ seen then seenAfter seen rest
    else seenAfter (cam.id :: seen) rest

theorem addCameras_eq (l : List CameraInfo) :
    ∀ seen acc, addCameras seen acc l = (seenAfter seen l, acc ++ dedupFrom seen l) := by
  induction l with
  | nil => intro seen acc; simp [addCameras, seenAfter, dedupFrom]
  | cons cam rest ih =>
    intro seen acc
    by_cases h : cam.id ∈ seen
    · simp [addCameras, seenAfter, dedupFrom, h, ih]
    · simp [addCameras, seenAfter, dedupFrom, h, ih]

theorem dedupFrom_append (l m : List CameraInfo) :
    ∀ seen, dedupFrom seen (l ++ m) =
      dedupFrom seen l ++ dedupFrom (seenAfter seen l) m := by
  induction l with
  | nil => intro seen; simp [dedupFrom, seenAfter]
  | cons cam rest ih =>
    intro seen
    by_cases h : cam.id ∈ seen
    · simp [dedupFrom, seenAfter, h, ih]
    · simp [dedupFrom, seenAfter, h, ih]

theorem detectWorkerAux_acc
    (bs : List (BackendType × Except String (List CameraInfo))) :
    ∀ seen acc errs,
      (detectWorkerAux bs seen acc errs).1 = acc ++ dedupFrom seen (flattenDetections bs) := by
  induction bs with
  | nil => intro seen acc errs; simp [detectWorkerAux, flattenDetections, dedupFrom]
  | cons b rest ih =>
    intro seen acc errs
    obtain ⟨bt, res⟩ := b
    by_cases h : bt = BackendType.ip
    · simp [detectWorkerAux, flattenDetections, h, ih, dedupFrom]
    · cases res with
      | error e =>
        simp [detectWorkerAux, flattenDetections, h, ih, dedupFrom]
      | ok found =>
        simp [detectWorkerAux, flattenDetections, h, addCameras_eq, ih,
          dedupFrom_append]

theorem dedupFrom_sublist (l : List CameraInfo) :
    ∀ seen, (dedupFrom seen l).Sublist l := by
  induction l with
  | nil => intro seen; simp [dedupFrom]
  | cons cam rest ih =>
    intro seen
    by_cases h : cam.id ∈ seen
    · simpa [dedupFrom, h] using ((ih seen).trans (List.sublist_cons_self cam rest))
    · simpa [dedupFrom, h] using (ih (cam.id :: seen)).cons₂ cam

theorem dedupFrom_not_seen (l : List CameraInfo) :
    ∀ seen c, c ∈ dedupFrom seen l → c.id ∉ seen := by
  induction l with
  | nil => intro seen c hc; simp [dedupFrom] at hc
  | cons cam rest ih =>
    intro seen c hc
    by_cases h : cam.id ∈ seen
    · exact ih seen c (by simpa [dedupFrom, h] using hc)
    · rw [dedupFrom, if_neg h] at hc
      rcases List.mem_cons.mp hc with rfl | hc'
      · exact h
      · intro hcs
        exact ih _ c hc' (List.mem_cons_of_mem _ hcs)

theorem dedupFrom_nodup (l : List CameraInfo) :
    ∀ seen, ((dedupFrom seen l).map (·.id)).Nodup := by
  induction l with
  | nil => intro seen; simp [dedupFrom]
  | cons cam rest ih =>
    intro seen
    by_cases h : cam.id ∈ seen
    · simpa [dedupFrom, h] using ih seen
    · rw [dedupFrom, if_neg h]
      refine List.Nodup.cons ?_ (ih (cam.id :: seen))
      intro hmem
      rcases List.mem_map.mp hmem with ⟨c, hc, hcid⟩
      exact dedupFrom_not_seen rest _ c hc (by simp [hcid])

theorem dedupFrom_covers (l : List CameraInfo) :
    ∀ seen c, c ∈ l → c.id ∉ seen → ∃ d ∈ dedupFrom seen l, d.id = c.id := by
  induction l with
  | nil => intro seen c hc; simp at hc
  | cons cam rest ih =>
    intro seen c hc hcs
    by_cases h : cam.id ∈ seen
    · rcases List.mem_cons.mp hc with rfl | hc'
      · exact absurd h hcs
      · rcases ih seen c hc' hcs with ⟨d, hd, hdid⟩
        exact ⟨d, by simpa [dedupFrom, h] using hd, hdid⟩
    · rw [dedupFrom, if_neg h]
      rcases List.mem_cons.mp hc with rfl | hc'
      · exact ⟨c, List.mem_cons_self _ _, rfl⟩
      · by_cases hcc : c.id = cam.id
        · exact ⟨cam, List.mem_cons_self _ _, hcc.symm⟩
        · rcases ih (cam.id :: seen) c hc' (by simp [hcs, hcc]) with ⟨d, hd, hdid⟩
          exact ⟨d, List.mem_cons_of_mem _ hd, hdid⟩

theorem dedupFrom_first (l : List CameraInfo) :
    ∀ seen d, d ∈ dedupFrom seen l →
      ∃ i, ∃ h : i < l.length, l.get ⟨i, h⟩ = d ∧
        ∀ j, ∀ hj : j < l.length, j < i → (l.get ⟨j, hj⟩).id ≠ d.id := by
  induction l with
  | nil => intro seen d hd; simp [dedupFrom] at hd
  | cons cam rest ih =>
    intro seen d hd
    by_cases h : cam.id ∈ seen
    · rw [dedupFrom, if_pos h] at hd
      rcases ih seen d hd with ⟨i, hi, hg, hfirst⟩
      refine ⟨i + 1, by simpa using Nat.succ_lt_succ hi, by simpa using hg, ?_⟩
      intro j hj hji
      cases j with
      | zero =>
        have hdns : d.id ∉ seen := dedupFrom_not_seen rest seen d hd
        simp only [List.get]
        intro hEq
        exact hdns (hEq ▸ h)
      | succ j' =>
        have hj' : j' < rest.length := by simpa using Nat.lt_of_succ_lt_succ hj
        have := hfirst j' hj' (Nat.lt_of_succ_lt_succ hji)
        simpa using this
    · rw [dedupFrom, if_neg h] at hd
      rcases List.mem_cons.mp hd with rfl | hd'
      · exact ⟨0, by simp, rfl, fun j hj hji => absurd hji (Nat.not_lt_zero j)⟩
      · rcases ih _ d hd' with ⟨i, hi, hg, hfirst⟩
        have hdns : d.id ∉ cam.id :: seen := dedupFrom_not_seen rest _ d hd'
        refine ⟨i + 1, by simpa using Nat.succ_lt_succ hi, by simpa using hg, ?_⟩
        intro j hj hji
        cases j with
        | zero =>
          simp only [List.get]
          intro hEq
          exact hdns (by simp [hEq])
        | succ j' =>
          have hj' : j' < rest.length := by simpa using Nat.lt_of_succ_lt_succ hj
          have := hfirst j' hj' (Nat.lt_of_succ_lt_succ hji)
          simpa using this

/-- C1.  For every detection pass (any per-backend outcomes, in registration
order), the merged list published by `detect_cameras_async` has pairwise
distinct ids; it is a subsequence of the concatenated non-IP detection
results; every detected id is represented; and each published camera is the
first occurrence of its id in that concatenation — later occurrences are
dropped (silently: dropping adds no error event, but that is visible from
the definition). -/
theorem detect_merged_dedup_first_wins
    (bs : List (BackendType × Except String (List CameraInfo))) :
    (((detectCamerasWorker bs).1.map (·.id)).Nodup) ∧
    ((detectCamerasWorker bs).1.Sublist (flattenDetections bs)) ∧
    (∀ c ∈ flattenDetections bs, ∃ d ∈ (detectCamerasWorker bs).1, d.id = c.id) ∧
    (∀ d ∈ (detectCamerasWorker bs).1,
      ∃ i, ∃ h : i < (flattenDetections bs).length,
        (flattenDetections bs).get ⟨i, h⟩ = d ∧
        ∀ j, ∀ hj : j < (flattenDetections bs).length, j < i →
          ((flattenDetections bs).get ⟨j, hj⟩).id ≠ d.id) := by
  have hmerged : (detectCamerasWorker bs).1 = dedupFrom [] (flattenDetections bs) := by
    simpa using detectWorkerAux_acc bs [] [] []
  refine ⟨?_, ?_, ?_, ?_⟩
  · rw [hmerged]; exact dedupFrom_nodup _ []
  · rw [hmerged]; exact dedupFrom_sublist _ []
  · intro c hc
    rw [hmerged]
    exact dedupFrom_covers _ [] c hc (by simp)
  · intro d hd
    rw [hmerged] at hd
    exact dedupFrom_first _ [] d hd

/-- Closed instance of `detect_merged_dedup_first_wins`: two backends that
emit a colliding id yield a merged list with pairwise distinct ids. -/
theorem detect_merged_dedup_first_wins_witness :
    (((detectCamerasWorker
      [(BackendType.v4l2, Except.ok
          [{ id := "v4l2:/dev/video0", name := "Cam A", backend := BackendType.v4l2,
             devicePath := "/dev/video0" }]),
       (BackendType.gphoto2, Except.ok
          [{ id := "v4l2:/dev/video0", name := "Cam B", backend := BackendType.gphoto2,
             devicePath := "usb:001,002" }])]).1.map (·.id)).Nodup) :=
  (detect_merged_dedup_first_wins _).1

/-! ## C2 / C5 / C9: the play sequence for setup-needing backends
(`bigcam/ui/window.py`, `_on_camera_selected` / `do_controls_then_stream`,
and `bigcam/core/backends/gphoto2_backend.py`, `is_camera_streaming`)

`_on_camera_selected`'s `needs_setup` branch is straight-line code whose
external actions are recorded here as a trace of operations.  Oracle inputs:
whether `self._streaming_lock.locked()` was true at the check, whether the
camera's port is in the backend's `_active_streams` map, whether `pgrep`
finds the helper process alive, the cached controls (`_controls_cache`),
whether the non-blocking `acquire` inside `do_controls_then_stream`
succeeded, the fetched control list, and `start_streaming`'s result. -/

/-- One externally visible operation of the play sequence. -/
inductive UiOp
  | stopHotplug
  | stopPipeline
  | fetchStart
  | fetchDone
  | startHelper
  | playPipeline
  | showError
  deriving DecidableEq, Repr

/-- `GPhoto2Backend.is_camera_streaming`: true only when the port is in the
`_active_streams` map AND `pgrep` confirms the helper process is alive (a
dead remembered entry is popped and reported as not streaming). -/
def isCameraStreaming (mapHasPort processAlive : Bool) : Bool :=
  mapHasPort && processAlive

/-- `GPhoto2Backend.needs_streaming_setup` (constant `True`). -/
def gphoto2NeedsStreamingSetup : Bool := true

/-- `do_controls_then_stream`: non-blocking lock acquire; fetch controls
only when the cache is empty; skip `start_streaming` when the camera is
already streaming.  Returns (trace, success, controls). -/
def doControlsThenStream (acquireOk : Bool) (cached : Option (List CameraControl))
    (alreadyStreaming : Bool) (fetched : List CameraControl) (startOk : Bool) :
    List UiOp × Bool × List CameraControl :=
  if !acquireOk then ([], false, [])
  else
    let fetchPart : List UiOp × List CameraControl :=
      match cached with
      | some cs => ([], cs)
      | none => ([UiOp.fetchStart, UiOp.fetchDone], fetched)
    if alreadyStreaming then (fetchPart.1, true, fetchPart.2)
    else (fetchPart.1 ++ [UiOp.startHelper], startOk, fetchPart.2)

/-- The `on_done` completion callback: plays the pipeline on success,
surfaces an error otherwise. -/
def onDone (success : Bool) : List UiOp :=
  if success then [UiOp.playPipeline] else [UiOp.showError]

/-- One play request's oracle inputs, as described above. -/
structure PlayRequest where
  lockHeld : Bool
  mapHasPort : Bool
  processAlive : Bool
  cached : Option (List CameraControl)
  acquireOk : Bool
  fetched : List CameraControl
  startOk : Bool

/-- `_on_camera_selected`, `needs_setup` branch: drop when the streaming
lock is held; otherwise stop hotplug, take the hot-swap shortcut when the
camera is confirmed streaming with cached controls, else stop the pipeline
and run `do_controls_then_stream` followed by `on_done`. -/
def requestTrace (r : PlayRequest) : List UiOp :=
  if r.lockHeld then []
  else
    let streaming := isCameraStreaming r.mapHasPort r.processAlive
    if streaming && r.cached.isSome then
      [UiOp.stopHotplug, UiOp.stopPipeline, UiOp.playPipeline]
    else
      let t := doControlsThenStream r.acquireOk r.cached streaming r.fetched r.startOk
      [UiOp.stopHotplug, UiOp.stopPipeline] ++ t.1 ++ onDone t.2.1

/-- In a concatenation where `b` never occurs on the left part and `a`
never on the right part, every occurrence of `a` is at a strictly smaller
index than every occurrence of `b`. -/
theorem index_lt_of_append {α : Type} (l₁ l₂ : List α) (a b : α)
    (ha : a ∉ l₂) (hb : b ∉ l₁) :
    ∀ i j : Nat, (l₁ ++ l₂)[i]? = some a → (l₁ ++ l₂)[j]? = some b → i < j := by
  intro i j hi hj
  have hilt : i < l₁.length := by
    by_contra hge
    push_neg at hge
    rw [List.getElem?_append_right hge] at hi
    exact ha (List.mem_iff_getElem?.mpr ⟨_, hi⟩)
  have hjge : l₁.length ≤ j := by
    by_contra hlt
    push_neg at hlt
    rw [List.getElem?_append_left hlt] at hj
    exact hb (List.mem_iff_getElem?.mpr ⟨_, hj⟩)
  exact Nat.lt_of_lt_of_le hilt hjge

/-- Every play-sequence trace splits at the helper-start boundary: all
controls-fetch events live in the left part, the helper start (if any) in
the right part. -/
theorem requestTrace_shape (r : PlayRequest) :
    ∃ pre post, requestTrace r = pre ++ post ∧
      UiOp.startHelper ∉ pre ∧ UiOp.fetchStart ∉ post ∧ UiOp.fetchDone ∉ post := by
  obtain ⟨lockHeld, mapHasPort, processAlive, cached, acquireOk, fetched, startOk⟩ := r
  cases lockHeld with
  | true => exact ⟨[], [], rfl, by decide, by decide, by decide⟩
  | false =>
    cases mapHasPort <;> cases processAlive <;> cases cached <;>
      cases acquireOk <;> cases startOk <;>
      first
      | exact ⟨[UiOp.stopHotplug, UiOp.stopPipeline, UiOp.playPipeline], [],
          rfl, by decide, by decide, by decide⟩
      | exact ⟨[UiOp.stopHotplug, UiOp.stopPipeline, UiOp.showError], [],
          rfl, by decide, by decide, by decide⟩
      | exact ⟨[UiOp.stopHotplug, UiOp.stopPipeline],
          [UiOp.startHelper, UiOp.playPipeline], rfl, by decide, by decide, by decide⟩
      | exact ⟨[UiOp.stopHotplug, UiOp.stopPipeline],
          [UiOp.startHelper, UiOp.showError], rfl, by decide, by decide, by decide⟩
      | exact ⟨[UiOp.stopHotplug, UiOp.stopPipeline, UiOp.fetchStart, UiOp.fetchDone],
          [UiOp.startHelper, UiOp.playPipeline], rfl, by decide, by decide, by decide⟩
      | exact ⟨[UiOp.stopHotplug, UiOp.stopPipeline, UiOp.fetchStart, UiOp.fetchDone],
          [UiOp.startHelper, UiOp.showError], rfl, by decide, by decide, by decide⟩
      | exact ⟨[UiOp.stopHotplug, UiOp.stopPipeline, UiOp.fetchStart, UiOp.fetchDone,
          UiOp.playPipeline], [], rfl, by decide, by decide, by decide⟩

/-- C2.  For every play sequence in the `needs_setup` branch, whenever the
trace starts the external helper, every controls-fetch event (both the call
and its completion) sits at a strictly earlier trace index: the
`get_controls` call completes before `start_streaming` is invoked, and
`start_streaming` never runs before the fetch has finished. -/
theorem controls_complete_before_helper_start (r : PlayRequest) (i j : Nat)
    (hj : (requestTrace r)[j]? = some UiOp.startHelper)
    (hi : (requestTrace r)[i]? = some UiOp.fetchStart ∨
          (requestTrace r)[i]? = some UiOp.fetchDone) :
    i < j := by
  obtain ⟨pre, post, heq, hpre, hpost1, hpost2⟩ := requestTrace_shape r
  rw [heq] at hi hj
  rcases hi with hi | hi
  · exact index_lt_of_append pre post _ _ hpost1 hpre i j hi hj
  · exact index_lt_of_append pre post _ _ hpost2 hpre i j hi hj

/-- Closed instance of `controls_complete_before_helper_start`: a fresh
(not-yet-streaming, uncached) sequence fetches at indices 2 and 3 and starts
the helper at index 4. -/
theorem controls_complete_before_helper_start_witness :
    (requestTrace ⟨false, false, false, none, true, [], true⟩)[3]? =
      some UiOp.fetchDone ∧
    (requestTrace ⟨false, false, false, none, true, [], true⟩)[4]? =
      some UiOp.startHelper ∧ (3 : Nat) < 4 :=
  ⟨by decide, by decide,
    controls_complete_before_helper_start ⟨false, false, false, none, true, [], true⟩
      3 4 (by decide) (Or.inr (by decide))⟩

/-- C5.  Re-selecting a gPhoto2 camera whose helper is confirmed alive and
whose controls are cached takes the hot-swap branch: the trace stops and
rebuilds only the media pipeline — no controls fetch and no helper start —
and confirmed liveness really required the process-table check to succeed
(`processAlive = true`), not merely membership in the helper map. -/
theorem hot_swap_no_refetch_no_restart (r : PlayRequest)
    (hlock : r.lockHeld = false)
    (hstream : isCameraStreaming r.mapHasPort r.processAlive = true)
    (hcached : r.cached.isSome = true) :
    requestTrace r = [UiOp.stopHotplug, UiOp.stopPipeline, UiOp.playPipeline] ∧
    UiOp.fetchStart ∉ requestTrace r ∧
    UiOp.fetchDone ∉ requestTrace r ∧
    UiOp.startHelper ∉ requestTrace r ∧
    r.processAlive = true := by
  have halive : r.processAlive = true := by
    have := hstream
    simp [isCameraStreaming, Bool.and_eq_true] at this
    exact this.2
  have htrace : requestTrace r =
      [UiOp.stopHotplug, UiOp.stopPipeline, UiOp.playPipeline] := by
    simp [requestTrace, hlock, hstream, hcached]
  exact ⟨htrace, by rw [htrace]; decide, by rw [htrace]; decide,
    by rw [htrace]; decide, halive⟩

/-- Closed instance of `hot_swap_no_refetch_no_restart` at a concrete
alive-and-cached request. -/
theorem hot_swap_no_refetch_no_restart_witness :
    requestTrace ⟨false, true, true, some [], true, [], true⟩ =
      [UiOp.stopHotplug, UiOp.stopPipeline, UiOp.playPipeline] ∧
    UiOp.fetchStart ∉ requestTrace ⟨false, true, true, some [], true, [], true⟩ ∧
    UiOp.fetchDone ∉ requestTrace ⟨false, true, true, some [], true, [], true⟩ ∧
    UiOp.startHelper ∉ requestTrace ⟨false, true, true, some [], true, [], true⟩ ∧
    (true : Bool) = true :=
  hot_swap_no_refetch_no_restart ⟨false, true, true, some [], true, [], true⟩
    rfl (by decide) (by decide)

/-- Any single play sequence starts the external helper at most once. -/
theorem single_request_helper_count (r : PlayRequest) :
    ((requestTrace r).count UiOp.startHelper) ≤ 1 := by
  obtain ⟨lockHeld, mapHasPort, processAlive, cached, acquireOk, fetched, startOk⟩ := r
  cases lockHeld <;> cases mapHasPort <;> cases processAlive <;> cases cached <;>
    cases acquireOk <;> cases startOk <;>
    simp [requestTrace, isCameraStreaming, doControlsThenStream, onDone,
      List.count_cons, List.count_append]

/-- C9.  A play request that arrives while the streaming lock is held is
dropped outright — its trace is empty, so it neither fetches controls nor
starts a helper — and in a selection burst in which every request after the
first finds the lock held, at most one external helper start is ever
initiated. -/
theorem concurrent_play_dropped (first : PlayRequest) (rest : List PlayRequest)
    (hrest : ∀ r ∈ rest, r.lockHeld = true) :
    (∀ r ∈ rest, requestTrace r = []) ∧
    ((((first :: rest).map requestTrace).flatten).count UiOp.startHelper ≤ 1) := by
  have hdrop : ∀ r ∈ rest, requestTrace r = [] := by
    intro r hr
    simp [requestTrace, hrest r hr]
  refine ⟨hdrop, ?_⟩
  have hrest' : (rest.map requestTrace).flatten = [] := by
    rw [List.flatten_eq_nil_iff]
    intro l hl
    rcases List.mem_map.mp hl with ⟨r, hr, rfl⟩
    exact hdrop r hr
  have hjoin : ((first :: rest).map requestTrace).flatten = requestTrace first := by
    rw [List.map_cons, List.flatten_cons, hrest', List.append_nil]
  rw [hjoin]
  exact single_request_helper_count first

/-- Closed instance of `concurrent_play_dropped`: a two-request burst where
the second request races an in-flight sequence. -/
theorem concurrent_play_dropped_witness :
    (∀ r ∈ [(⟨true, false, false, none, false, [], false⟩ : PlayRequest)],
      requestTrace r = []) ∧
    ((([(⟨false, false, false, none, true, [], true⟩ : PlayRequest),
        ⟨true, false, false, none, false, [], false⟩].map requestTrace).flatten).count
      UiOp.startHelper ≤ 1) :=
  concurrent_play_dropped ⟨false, false, false, none, true, [], true⟩
    [⟨true, false, false, none, false, [], false⟩] (by intro r hr; simp at hr; rw [hr])

/-! ## C3: bounded appsink pipeline-construction retry
(`bigcam/core/stream_engine.py`, `_build_appsink_pipeline`,
`_try_appsink_first`, `_try_appsink_pipeline`)

`_build_appsink_pipeline` arms a one-shot 2000 ms timer; its callback makes
attempt 1 and, if it fails, arms a repeating 500 ms timer that re-enters
`_try_appsink_pipeline` while it returns true.  Each attempt's outcome
(either of the two pipeline variants reached PLAYING) is the oracle
`succeed`; `stopped n` is whether `self._current_camera` had become `None`
by the time of attempt `n` (the callback then disarms without an attempt).
The run is a list of `(firing time in ms, attempt number)` pairs plus the
number of `error` signals emitted. -/

/-- `GLib.timeout_add(2000, ...)` grace delay of `_build_appsink_pipeline`. -/
def appsinkInitialDelayMs : Nat := 2000

/-- `GLib.timeout_add(500, ...)` retry interval of `_try_appsink_first`. -/
def appsinkRetryIntervalMs : Nat := 500

/-- `self._appsink_max_retries = 30`. -/
def appsinkMaxRetries : Nat := 30

/-- The timer-driven retry loop.  `count` is `self._appsink_retry_count`
when the callback fires at `time`; `fuel` bounds the recursion and is kept
equal to `appsinkMaxRetries - count` by the entry point. -/
def appsinkTimed (succeed stopped : Nat → Bool) : Nat → Nat → Nat → List (Nat × Nat) × Nat
  | 0, _count, _time => ([], 0)
  | fuel + 1, count, time =>
    if stopped (count + 1) then ([], 0)
    else if succeed (count + 1) then ([(time, count + 1)], 0)
    else if count + 1 < appsinkMaxRetries then
      let r := appsinkTimed succeed stopped fuel (count + 1) (time + appsinkRetryIntervalMs)
      ((time, count + 1) :: r.1, r.2)
    else ([(time, count + 1)], 1)

/-- A full appsink play attempt: retry counter starts at 0 and the first
callback fires after the 2 s grace delay. -/
def appsinkRun (succeed stopped : Nat → Bool) : List (Nat × Nat) × Nat :=
  appsinkTimed succeed stopped appsinkMaxRetries 0 appsinkInitialDelayMs

theorem appsinkTimed_spec (s t : Nat → Bool) :
    ∀ fuel count time, count + fuel = appsinkMaxRetries → count < appsinkMaxRetries →
      (appsinkTimed s t fuel count time).1.length ≤ fuel ∧
      (∀ k : Nat, k < (appsinkTimed s t fuel count time).1.length →
        ((appsinkTimed s t fuel count time).1)[k]? =
          some (time + appsinkRetryIntervalMs * k, count + k + 1)) ∧
      (appsinkTimed s t fuel count time).2 ≤ 1 ∧
      ((appsinkTimed s t fuel count time).2 = 1 ↔
        ((appsinkTimed s t fuel count time).1.length = fuel ∧
          ∀ i : Nat, i < fuel → s (count + i + 1) = false ∧ t (count + i + 1) = false)) := by
  intro fuel
  induction fuel with
  | zero =>
    intro count time h1 h2
    exact absurd h1 (by omega)
  | succ fuel ih =>
    intro count time h1 h2
    by_cases ht : t (count + 1) = true
    · have hred : appsinkTimed s t (fuel + 1) count time = ([], 0) := by
        simp [appsinkTimed, ht]
      rw [hred]
      refine ⟨by simp, ?_, by simp, ?_⟩
      · intro k hk
        simp at hk
      · simp only [List.length_nil]
        constructor
        · intro h; exact absurd h (by simp)
        · rintro ⟨hlen, _⟩; omega
    · have ht' : t (count + 1) = false := by
        cases h : t (count + 1)
        · rfl
        · exact absurd h ht
      by_cases hs : s (count + 1) = true
      · have hred : appsinkTimed s t (fuel + 1) count time = ([(time, count + 1)], 0) := by
          simp [appsinkTimed, ht', hs]
        rw [hred]
        refine ⟨by simp, ?_, by simp, ?_⟩
        · intro k hk
          simp only [List.length_singleton] at hk
          have hk0 : k = 0 := by omega
          subst hk0
          simp
        · simp only [List.length_singleton]
          constructor

          · intro h; exact absurd h (by simp)
          · rintro ⟨hlen, hall⟩
            exfalso
            have hzero := (hall 0 (by omega)).1
            rw [Nat.add_zero] at hzero
            rw [hzero] at hs
            exact absurd hs (by simp)
      · have hs' : s (count + 1) = false := by
          cases h : s (count + 1)
          · rfl
          · exact absurd h hs
        by_cases hlt : count + 1 < appsinkMaxRetries
        · have hred : appsinkTimed s t (fuel + 1) count time =
              ((time, count + 1) ::
                (appsinkTimed s t fuel (count + 1) (time + appsinkRetryIntervalMs)).1,
               (appsinkTimed s t fuel (count + 1) (time + appsinkRetryIntervalMs)).2) := by
            simp [appsinkTimed, ht', hs', hlt]
          have h1' : count + 1 + fuel = appsinkMaxRetries := by omega
          obtain ⟨iha, ihb, ihc, ihd⟩ :=
            ih (count + 1) (time + appsinkRetryIntervalMs) h1' hlt
          rw [hred]
          refine ⟨?_, ?_, ihc, ?_⟩
          · simpa using Nat.succ_le_succ iha
          · intro k hk
            cases k with
            | zero => simp
            | succ k' =>
              simp only [List.length_cons] at hk
              have hk' : k' < (appsinkTimed s t fuel (count + 1)
                  (time + appsinkRetryIntervalMs)).1.length := by omega
              have := ihb k' hk'
              simp only [List.getElem?_cons_succ, this]
              congr 2
              · ring
              · omega
          · rw [ihd]
            simp only [List.length_cons]
            constructor
            · rintro ⟨hlen, hall⟩
              refine ⟨by omega, ?_⟩
              intro i hi
              cases i with
              | zero => exact ⟨by simpa using hs', by simpa using ht'⟩
              | succ i' =>
                have hstep := hall i' (by omega)
                constructor
                · have h' := hstep.1
                  rw [show count + (i' + 1) + 1 = count + 1 + i' + 1 by omega]
                  exact h'
                · have h' := hstep.2
                  rw [show count + (i' + 1) + 1 = count + 1 + i' + 1 by omega]
                  exact h'
            · rintro ⟨hlen, hall⟩
              refine ⟨by omega, ?_⟩
              intro i hi
              have hstep := hall (i + 1) (by omega)
              constructor
              · have h' := hstep.1
                rw [show count + 1 + i + 1 = count + (i + 1) + 1 by omega]
                exact h'
              · have h' := hstep.2
                rw [show count + 1 + i + 1 = count + (i + 1) + 1 by omega]
                exact h'
        · have hred : appsinkTimed s t (fuel + 1) count time = ([(time, count + 1)], 1) := by
            simp [appsinkTimed, ht', hs', hlt]
          have hfuel0 : fuel = 0 := by omega
          subst hfuel0
          rw [hred]
          refine ⟨by simp, ?_, by simp, ?_⟩
          · intro k hk
            simp only [List.length_singleton] at hk
            have hk0 : k = 0 := by omega
            subst hk0
            simp
          · simp only [List.length_singleton]
            constructor
            · intro _
              refine ⟨by trivial, ?_⟩
              intro i hi
              have hi0 : i = 0 := by omega
              subst hi0
              exact ⟨by simpa using hs', by simpa using ht'⟩
            · intro _; trivial

/-- C3.  For every appsink play attempt: attempts never exceed the cap of
30; attempt `k+1` fires at `2000 + 500·k` ms (the fixed 500 ms retry
interval after the initial 2 s grace delay); at most one terminal `error`
is ever emitted; and exactly one terminal `error` is emitted precisely when
all 30 attempts were made and every one of them failed (with the play not
having been stopped meanwhile). -/
theorem appsink_bounded_retry (succeed stopped : Nat → Bool) :
    ((appsinkRun succeed stopped).1.length ≤ appsinkMaxRetries) ∧
    (∀ k : Nat, k < (appsinkRun succeed stopped).1.length →
      ((appsinkRun succeed stopped).1)[k]? =
        some (appsinkInitialDelayMs + appsinkRetryIntervalMs * k, k + 1)) ∧
    ((appsinkRun succeed stopped).2 ≤ 1) ∧
    ((appsinkRun succeed stopped).2 = 1 ↔
      ((appsinkRun succeed stopped).1.length = appsinkMaxRetries ∧
        ∀ i : Nat, i < appsinkMaxRetries →
          succeed (i + 1) = false ∧ stopped (i + 1) = false)) := by
  have h := appsinkTimed_spec succeed stopped appsinkMaxRetries 0 appsinkInitialDelayMs
    (by simp) (by decide)
  obtain ⟨ha, hb, hc, hd⟩ := h
  simp only [appsinkRun]
  refine ⟨ha, ?_, hc, ?_⟩
  · intro k hk
    simpa using hb k hk
  · rw [hd]
    constructor
    · rintro ⟨hlen, hall⟩
      exact ⟨hlen, fun i hi => by simpa using hall i hi⟩
    · rintro ⟨hlen, hall⟩
      exact ⟨hlen, fun i hi => by simpa using hall i hi⟩

/-- Closed instance of `appsink_bounded_retry`: when every attempt fails
and the play is never stopped, exactly one terminal error is emitted. -/
theorem appsink_bounded_retry_witness :
    (appsinkRun (fun _ => false) (fun _ => false)).2 = 1 :=
  (appsink_bounded_retry (fun _ => false) (fun _ => false)).2.2.2.mpr
    ⟨by decide, by decide⟩

/-! ## C10: control reset
(`bigcam/core/camera_backend.py`, `CameraBackend.reset_control` /
`reset_all_controls`)

`set_control` shells out to the backend tool; here a performed write is
recorded as the `(control_id, value)` pair handed to `set_control`, and the
boolean a concrete backend would return is the oracle `setRes`. -/

/-- `CameraBackend.reset_all_controls`: iterates the given control list and
calls `set_control(camera, ctrl.id, ctrl.default)` for every control whose
`flags` is not one of `("inactive", "read-only")`.  Returns the writes
performed, in order. -/
def resetAllControls : List CameraControl → List (String × CtrlValue)
  | [] => []
  | c :: rest =>
    if c.flags = "inactive" ∨ c.flags = "read-only" then resetAllControls rest
    else (c.id, c.default) :: resetAllControls rest

/-- `CameraBackend.reset_control`: scans for the first control with the
requested id, writes its default and returns `set_control`'s result;
returns `False` (with no write) when no control matches. -/
def resetControl (setRes : String → CtrlValue → Bool) (controlId : String) :
    List CameraControl → List (String × CtrlValue) × Bool
  | [] => ([], false)
  | c :: rest =>
    if c.id = controlId then ([(controlId, c.default)], setRes controlId c.default)
    else resetControl setRes controlId rest

/-- C10.  `reset_all_controls` writes the default exactly of those controls
whose `flags` field is neither `"inactive"` nor `"read-only"` (in list
order), so every performed write stems from such a control and no control
carrying either flag is ever written; and `reset_control` performs no write
and returns false when no control in the list has the requested id. -/
theorem reset_controls_spec (controls : List CameraControl)
    (setRes : String → CtrlValue → Bool) (controlId : String) :
    (resetAllControls controls =
      (controls.filter
        (fun c => !(c.flags = "inactive" ∨ c.flags = "read-only" : Bool))).map
        (fun c => (c.id, c.default))) ∧
    (∀ w ∈ resetAllControls controls, ∃ c ∈ controls,
      c.id = w.1 ∧ c.default = w.2 ∧ c.flags ≠ "inactive" ∧ c.flags ≠ "read-only") ∧
    ((∀ c ∈ controls, c.id ≠ controlId) →
      resetControl setRes controlId controls = ([], false)) := by
  refine ⟨?_, ?_, ?_⟩
  · induction controls with
    | nil => simp [resetAllControls]
    | cons c rest ih =>
      by_cases h : c.flags = "inactive" ∨ c.flags = "read-only"
      · rcases h with h | h <;> simp [resetAllControls, h, ih]
      · push_neg at h
        simp [resetAllControls, h.1, h.2, ih]
  · induction controls with
    | nil => intro w hw; simp [resetAllControls] at hw
    | cons c rest ih =>
      intro w hw
      by_cases h : c.flags = "inactive" ∨ c.flags = "read-only"
      · rw [resetAllControls, if_pos h] at hw
        rcases ih w hw with ⟨d, hd, hprops⟩
        exact ⟨d, List.mem_cons_of_mem _ hd, hprops⟩
      · rw [resetAllControls, if_neg h] at hw
        rcases List.mem_cons.mp hw with rfl | hw'
        · push_neg at h
          exact ⟨c, List.mem_cons_self _ _, rfl, rfl, h.1, h.2⟩
        · rcases ih w hw' with ⟨d, hd, hprops⟩
          exact ⟨d, List.mem_cons_of_mem _ hd, hprops⟩
  · induction controls with
    | nil => intro _; rfl
    | cons c rest ih =>
      intro hnone
      have hc : c.id ≠ controlId := hnone c (List.mem_cons_self _ _)
      rw [resetControl, if_neg hc]
      exact ih (fun d hd => hnone d (List.mem_cons_of_mem _ hd))

/-- Closed instance of `reset_controls_spec`: a list with one writable and
one read-only control writes exactly the writable one, and resetting an
absent id is a no-op returning false. -/
theorem reset_controls_spec_witness :
    (resetAllControls
      [{ id := "brightness", name := "Brightness", category := ControlCategory.image,
         controlType := ControlType.integer, value := CtrlValue.intVal 10,
         default := CtrlValue.intVal 128 },
       { id := "gain", name := "Gain", category := ControlCategory.exposure,
         controlType := ControlType.integer, value := CtrlValue.intVal 1,
         default := CtrlValue.intVal 0, flags := "read-only" }] =
      [("brightness", CtrlValue.intVal 128)]) ∧
    (resetControl (fun _ _ => true) "contrast"
      [{ id := "brightness", name := "Brightness", category := ControlCategory.image,
         controlType := ControlType.integer, value := CtrlValue.intVal 10,
         default := CtrlValue.intVal 128 }] = ([], false)) := by
  have h := reset_controls_spec
    [{ id := "brightness", name := "Brightness", category := ControlCategory.image,
       controlType := ControlType.integer, value := CtrlValue.intVal 10,
       default := CtrlValue.intVal 128 },
     { id := "gain", name := "Gain", category := ControlCategory.exposure,
       controlType := ControlType.integer, value := CtrlValue.intVal 1,
       default := CtrlValue.intVal 0, flags := "read-only" }]
    (fun _ _ => true) "contrast"
  have h2 := reset_controls_spec
    [{ id := "brightness", name := "Brightness", category := ControlCategory.image,
       controlType := ControlType.integer, value := CtrlValue.intVal 10,
       default := CtrlValue.intVal 128 }]
    (fun _ _ => true) "contrast"
  refine ⟨?_, h2.2.2 (by decide)⟩
  rw [h.1]
  decide

/-! ## C4: network-camera URL scheme validation
(`bigcam/core/backends/ip_backend.py`, `_validate_url`,
`IPBackend.cameras_from_urls`, `IPBackend.get_gst_source`)

`urlScheme` models `urllib.parse.urlparse(url).scheme`: the lowercased
prefix before the first `:` when that prefix starts with an ASCII letter
and consists of scheme characters, else the empty string. -/

/-- Characters admissible in a URL scheme (`urllib.parse.scheme_chars`). -/
def schemeChar (c : Char) : Bool :=
  c.isAlpha || c.isDigit || c = '+' || c = '-' || c = '.'

/-- The characters before the first `:`, or `none` when there is no `:`
(the `url.find(':')` step of `urlparse`). -/
def takeUntilColon : List Char → Option (List Char)
  | [] => none
  | c :: rest => if c = ':' then some [] else (takeUntilColon rest).map (c :: ·)

/-- `urllib.parse.urlparse(url).scheme`: the lowercased prefix before the
first `:` when it starts with an ASCII letter and consists of scheme
characters, else `""`. -/
def urlScheme (url : String) : String :=
  match takeUntilColon url.data with
  | none => ""
  | some [] => ""
  | some (c :: cs) =>
    if c.isAlpha && (c :: cs).all schemeChar
    then ⟨(c :: cs).map Char.toLower⟩ else ""

/-- `_ALLOWED_SCHEMES` of `ip_backend.py`. -/
def allowedSchemes : List String := ["rtsp", "rtsps", "http", "https"]

/-- `_validate_url`: returns the url unchanged, or the `ValueError` raised
on a disallowed scheme (the Python message quotes the scheme with `!r`;
that repr quoting is elided here). -/
def validateUrl (url : String) : Except String String :=
  if urlScheme url ∈ allowedSchemes then Except.ok url
  else Except.error ("Unsupported scheme: " ++ urlScheme url)

/-- `value.replace("\\", "\\\\")` — the pattern is a single character, so
the replacement is a per-character expansion. -/
def escapeBackslash : List Char → List Char
  | [] => []
  | c :: rest => (if c = '\\' then ['\\', '\\'] else [c]) ++ escapeBackslash rest

/-- `.replace('"', '\\"')` — likewise a per-character expansion. -/
def escapeQuote : List Char → List Char
  | [] => []
  | c :: rest => (if c = '"' then ['\\', '"'] else [c]) ++ escapeQuote rest

/-- `_escape_gst_string`. -/
def escapeGstString (value : String) : String :=
  ⟨escapeQuote (escapeBackslash value.data)⟩

/-- Python `str.startswith`. -/
def pyStartsWith (s pre : String) : Bool :=
  pre.data.isPrefixOf s.data

/-- One element of the user-saved `[{"name": ..., "url": ...}]` list. -/
structure IPEntry where
  entryName : Option String := none
  entryUrl : Option String := none

/-- `IPBackend.cameras_from_urls`: builds a `CameraInfo` for every entry
with a non-empty url.  (Note: the source performs no call to
`_validate_url` here.) -/
def camerasFromUrls (entries : List IPEntry) : List CameraInfo :=
  entries.filterMap fun e =>
    let url := e.entryUrl.getD ""
    let name := e.entryName.getD url
    if url = "" then none
    else some
      { id := "ip:" ++ url
        name := name
        backend := BackendType.ip
        devicePath := url
        capabilities := ["video"]
        formats := []
        isVirtual := false
        extra := [("url", url)] }

/-- `camera.extra.get(key, default)` for the string-valued extra bag. -/
def lookupExtra (extra : List (String × String)) (key : String) : Option String :=
  (extra.find? (fun p => p.1 = key)).map (·.2)

/-- `IPBackend.get_gst_source` (the source-descriptor builder of the
network-camera driver). -/
def ipGetGstSource (camera : CameraInfo) : String :=
  let url := escapeGstString ((lookupExtra camera.extra "url").getD camera.devicePath)
  if pyStartsWith camera.devicePath "rtsp" then
    "rtspsrc location=\"" ++ url ++ "\" latency=300 ! decodebin ! videoconvert"
  else
    "souphttpsrc location=\"" ++ url ++ "\" ! decodebin ! videoconvert"

/-- C4 (divergence witness).  For the entry
`{"name": "x", "url": "javascript:alert(1)"}`: the validator
`_validate_url` would indeed reject the scheme `javascript` — but
`cameras_from_urls` never invokes it and happily constructs the
`CameraInfo`, and the source-descriptor builder then produces a
`souphttpsrc` descriptor for the disallowed URL.  This contradicts the
claim that such an entry is rejected, creates no `CameraInfo`, and never
reaches the descriptor builder. -/
theorem ip_disallowed_scheme_reaches_builder :
    validateUrl "javascript:alert(1)" =
      Except.error "Unsupported scheme: javascript" ∧
    camerasFromUrls [{ entryName := some "x", entryUrl := some "javascript:alert(1)" }] =
      [{ id := "ip:javascript:alert(1)", name := "x", backend := BackendType.ip,
         devicePath := "javascript:alert(1)", capabilities := ["video"], formats := [],
         isVirtual := false, extra := [("url", "javascript:alert(1)")] }] ∧
    ipGetGstSource
      { id := "ip:javascript:alert(1)", name := "x", backend := BackendType.ip,
        devicePath := "javascript:alert(1)", capabilities := ["video"], formats := [],
        isVirtual := false, extra := [("url", "javascript:alert(1)")] } =
      "souphttpsrc location=\"javascript:alert(1)\" ! decodebin ! videoconvert" := by
  refine ⟨?_, ?_, ?_⟩
  · rfl
  · decide
  · decide

/-! ## C6: gPhoto2 control discovery retry schedule
(`bigcam/core/backends/gphoto2_backend.py`, `GPhoto2Backend.get_controls`
and `_refresh_port`)

Each `gphoto2 --list-all-config` invocation either raises (timeout etc.,
caught by the outer `except`) or completes with a return code and stdout
lines; that is the oracle `GpOutcome` per attempt.  The externally visible
actions are recorded as events: `killGvfs` (`_kill_gvfs`), `releaseUsb`
(`_release_usb_device`), `diagnose` (`_diagnose_usb`), `sleepSec`
(`time.sleep`), `listAttempt n` (the n-th `--list-all-config` run) and
`portRefresh` (`_refresh_port`).  The batched `--get-config` reads that
follow a successful listing are modelled by the oracles `batchFn` (a whole
50-path batch: `some controls` for a zero exit, `none` for a failed one)
and `singleFn` (the one-by-one fallback). -/

/-- Outcome of one `gphoto2 --list-all-config` subprocess call. -/
inductive GpOutcome
  | exn
  | res (rcZero : Bool) (lines : List String)
  deriving DecidableEq, Repr

/-- Python `str.strip()`: drop whitespace from both ends. -/
def pyStrip (s : String) : String :=
  ⟨((s.data.dropWhile Char.isWhitespace).reverse.dropWhile Char.isWhitespace).reverse⟩

/-- `result.stdout.strip()` is non-empty iff some line strips non-empty. -/
def stdoutNonempty (lines : List String) : Bool :=
  lines.any (fun l => !(pyStrip l).data.isEmpty)

/-- The loop's break condition
`result.returncode == 0 and result.stdout.strip()`. -/
def gpSuccess : GpOutcome → Bool
  | .exn => false
  | .res rcZero lines => rcZero && stdoutNonempty lines

/-- The attempt completed but the break condition failed (non-zero exit or
blank stdout) — the case that schedules a retry. -/
def gpFailed : GpOutcome → Bool
  | .exn => false
  | .res rcZero lines => !(rcZero && stdoutNonempty lines)

/-- `config_paths`: stripped stdout lines starting with `/`. -/
def configPathsOf : GpOutcome → List String
  | .exn => []
  | .res _ lines => (lines.map pyStrip).filter (fun l => pyStartsWith l "/")

/-- One externally visible action of `get_controls`. -/
inductive GpEvent
  | killGvfs
  | releaseUsb
  | diagnose
  | sleepSec (s : Nat)
  | listAttempt (n : Nat)
  | portRefresh
  deriving DecidableEq, Repr

/-- `self._BATCH_SIZE = 50`. -/
def gpBatchSize : Nat := 50

/-- The batched config-read phase: paths chunked by 50; a failed batch
falls back to one-by-one reads for just that batch. -/
def batchPhase (batchFn : List String → Option (List CameraControl))
    (singleFn : String → Option CameraControl) (paths : List String) :
    List CameraControl :=
  (paths.toChunks gpBatchSize).foldl
    (fun acc chunk =>
      match batchFn chunk with
      | some cs => acc ++ cs
      | none => acc ++ chunk.filterMap singleFn) []

/-- The tail of `get_controls` after a listing attempt broke out of the
retry loop (or the final attempt passed): the dead `returncode != 0`
re-check, config-path extraction, early return on no paths, batch reads. -/
def gpFinish (o : GpOutcome) (batchFn : List String → Option (List CameraControl))
    (singleFn : String → Option CameraControl) : List CameraControl :=
  match o with
  | .exn => []
  | .res rcZero lines =>
    if !rcZero then []
    else
      let paths := (lines.map pyStrip).filter (fun l => pyStartsWith l "/")
      if paths.isEmpty then []
      else batchPhase batchFn singleFn paths

/-- `GPhoto2Backend.get_controls`: pre-loop remediation and diagnosis, the
`delays = [0, 3, 5]` retry loop re-running remediation before each delayed
retry, the port-refresh fallback once all three scheduled attempts fail,
and the final attempt.  Returns the event trace and the control list. -/
def gpGetControls (a1 a2 a3 afinal : GpOutcome)
    (batchFn : List String → Option (List CameraControl))
    (singleFn : String → Option CameraControl) :
    List GpEvent × List CameraControl :=
  let ev1 : List GpEvent :=
    [GpEvent.killGvfs, GpEvent.releaseUsb, GpEvent.diagnose, GpEvent.listAttempt 1]
  if a1 = GpOutcome.exn then (ev1, [])
  else if gpSuccess a1 then (ev1, gpFinish a1 batchFn singleFn)
  else
    let ev2 := ev1 ++ [GpEvent.sleepSec 3, GpEvent.killGvfs, GpEvent.releaseUsb,
      GpEvent.diagnose, GpEvent.listAttempt 2]
    if a2 = GpOutcome.exn then (ev2, [])
    else if gpSuccess a2 then (ev2, gpFinish a2 batchFn singleFn)
    else
      let ev3 := ev2 ++ [GpEvent.sleepSec 5, GpEvent.killGvfs, GpEvent.releaseUsb,
        GpEvent.diagnose, GpEvent.listAttempt 3]
      if a3 = GpOutcome.exn then (ev3, [])
      else if gpSuccess a3 then (ev3, gpFinish a3 batchFn singleFn)
      else
        let ev4 := ev3 ++ [GpEvent.portRefresh, GpEvent.releaseUsb,
          GpEvent.diagnose, GpEvent.listAttempt 4]
        if afinal = GpOutcome.exn then (ev4, [])
        else if gpSuccess afinal then (ev4, gpFinish afinal batchFn singleFn)
        else (ev4, [])

/-- Is an event a `--list-all-config` attempt? -/
def isListAttempt : GpEvent → Bool
  | .listAttempt _ => true
  | _ => false

/-- C6 counterexample.  When the very first listing attempt exits 0 with
non-blank stdout that contains no configuration paths, `get_controls`
returns the empty control list after a single attempt: no port refresh and
no final attempt ever happen, contradicting the claim that an empty list is
returned only after the post-refresh attempt has also failed. -/
theorem gp_empty_without_final_attempt :
    gpGetControls (GpOutcome.res true ["ok"]) (GpOutcome.res true ["ok"])
      (GpOutcome.res true ["ok"]) (GpOutcome.res true ["ok"])
      (fun _ => none) (fun _ => none) =
      ([GpEvent.killGvfs, GpEvent.releaseUsb, GpEvent.diagnose,
        GpEvent.listAttempt 1], []) ∧
    GpEvent.portRefresh ∉
      (gpGetControls (GpOutcome.res true ["ok"]) (GpOutcome.res true ["ok"])
        (GpOutcome.res true ["ok"]) (GpOutcome.res true ["ok"])
        (fun _ => none) (fun _ => none)).1 ∧
    GpEvent.listAttempt 4 ∉
      (gpGetControls (GpOutcome.res true ["ok"]) (GpOutcome.res true ["ok"])
        (GpOutcome.res true ["ok"]) (GpOutcome.res true ["ok"])
        (fun _ => none) (fun _ => none)).1 := by
  refine ⟨?_, ?_, ?_⟩ <;> decide

/-- C6 (amended).  For every control-discovery call: the first attempt runs
immediately after the pre-loop remediation (auto-mount kill, USB release)
and diagnosis; the 3 s-delayed retry (with remediation re-run) happens iff
attempt 1 completed unsuccessfully; the 5 s-delayed retry iff attempts 1-2
both did; the device port is re-identified and a fourth, final attempt made
iff all three scheduled attempts completed unsuccessfully; at most four
listing attempts ever run; and if the three scheduled attempts fail and the
final attempt does not succeed, the returned control list is empty.  (An
empty list can also be returned earlier — see
`gp_empty_without_final_attempt`.) -/
theorem gp_retry_schedule (a1 a2 a3 af : GpOutcome)
    (batchFn : List String → Option (List CameraControl))
    (singleFn : String → Option CameraControl) :
    ([GpEvent.killGvfs, GpEvent.releaseUsb, GpEvent.diagnose, GpEvent.listAttempt 1] <+:
      (gpGetControls a1 a2 a3 af batchFn singleFn).1) ∧
    (([GpEvent.sleepSec 3, GpEvent.killGvfs, GpEvent.releaseUsb, GpEvent.diagnose,
        GpEvent.listAttempt 2] <:+: (gpGetControls a1 a2 a3 af batchFn singleFn).1) ↔
      gpFailed a1 = true) ∧
    (([GpEvent.sleepSec 5, GpEvent.killGvfs, GpEvent.releaseUsb, GpEvent.diagnose,
        GpEvent.listAttempt 3] <:+: (gpGetControls a1 a2 a3 af batchFn singleFn).1) ↔
      gpFailed a1 = true ∧ gpFailed a2 = true) ∧
    (([GpEvent.portRefresh, GpEvent.releaseUsb, GpEvent.diagnose,
        GpEvent.listAttempt 4] <:+: (gpGetControls a1 a2 a3 af batchFn singleFn).1) ↔
      gpFailed a1 = true ∧ gpFailed a2 = true ∧ gpFailed a3 = true) ∧
    (((gpGetControls a1 a2 a3 af batchFn singleFn).1.filter isListAttempt).length ≤ 4) ∧
    (gpFailed a1 = true → gpFailed a2 = true → gpFailed a3 = true →
      gpSuccess af = false → (gpGetControls a1 a2 a3 af batchFn singleFn).2 = []) := by
  have hf : ∀ rc lines, gpFailed (GpOutcome.res rc lines) =
      !gpSuccess (GpOutcome.res rc lines) := fun _ _ => rfl
  cases a1 with
  | exn =>
    have htr : (gpGetControls GpOutcome.exn a2 a3 af batchFn singleFn).1 =
        [GpEvent.killGvfs, GpEvent.releaseUsb, GpEvent.diagnose, GpEvent.listAttempt 1] := by
      rfl
    refine ⟨?_, ?_, ?_, ?_, ?_, ?_⟩
    · simp only [htr]; decide
    · rw [htr]
      exact iff_of_false (by decide) (by simp [gpFailed])
    · rw [htr]
      exact iff_of_false (by decide) (by rintro ⟨h, _⟩; simp [gpFailed] at h)
    · rw [htr]
      exact iff_of_false (by decide) (by rintro ⟨h, _⟩; simp [gpFailed] at h)
    · simp only [htr]; decide
    · intro h _ _ _; simp [gpFailed] at h
  | res rc1 l1 =>
    cases hs1 : gpSuccess (GpOutcome.res rc1 l1) with
    | true =>
      have hfail1 : gpFailed (GpOutcome.res rc1 l1) = false := by rw [hf, hs1]; rfl
      have htr : (gpGetControls (GpOutcome.res rc1 l1) a2 a3 af batchFn singleFn).1 =
          [GpEvent.killGvfs, GpEvent.releaseUsb, GpEvent.diagnose, GpEvent.listAttempt 1] := by
        simp [gpGetControls, hs1]
      refine ⟨?_, ?_, ?_, ?_, ?_, ?_⟩
      · simp only [htr]; decide
      · rw [htr]
        exact iff_of_false (by decide) (by rw [hfail1]; simp)
      · rw [htr]
        exact iff_of_false (by decide) (by rintro ⟨h, _⟩; rw [hfail1] at h; simp at h)
      · rw [htr]
        exact iff_of_false (by decide) (by rintro ⟨h, _⟩; rw [hfail1] at h; simp at h)
      · simp only [htr]; decide
      · intro h _ _ _; rw [hfail1] at h; simp at h
    | false =>
      have hfail1 : gpFailed (GpOutcome.res rc1 l1) = true := by rw [hf, hs1]; rfl
      cases a2 with
      | exn =>
        have htr : (gpGetControls (GpOutcome.res rc1 l1) GpOutcome.exn a3 af batchFn singleFn).1 =
            [GpEvent.killGvfs, GpEvent.releaseUsb, GpEvent.diagnose, GpEvent.listAttempt 1,
             GpEvent.sleepSec 3, GpEvent.killGvfs, GpEvent.releaseUsb, GpEvent.diagnose,
             GpEvent.listAttempt 2] := by
          simp [gpGetControls, hs1]
        refine ⟨?_, ?_, ?_, ?_, ?_, ?_⟩
        · simp only [htr]; decide
        · rw [htr]
          exact iff_of_true (by decide) hfail1
        · rw [htr]
          exact iff_of_false (by decide) (by rintro ⟨_, h⟩; simp [gpFailed] at h)
        · rw [htr]
          exact iff_of_false (by decide) (by rintro ⟨_, h, _⟩; simp [gpFailed] at h)
        · simp only [htr]; decide
        · intro _ h _ _; simp [gpFailed] at h
      | res rc2 l2 =>
        cases hs2 : gpSuccess (GpOutcome.res rc2 l2) with
        | true =>
          have hfail2 : gpFailed (GpOutcome.res rc2 l2) = false := by rw [hf, hs2]; rfl
          have htr : (gpGetControls (GpOutcome.res rc1 l1) (GpOutcome.res rc2 l2) a3 af batchFn singleFn).1 =
              [GpEvent.killGvfs, GpEvent.releaseUsb, GpEvent.diagnose, GpEvent.listAttempt 1,
             GpEvent.sleepSec 3, GpEvent.killGvfs, GpEvent.releaseUsb, GpEvent.diagnose,
             GpEvent.listAttempt 2] := by
            simp [gpGetControls, hs1, hs2]
          refine ⟨?_, ?_, ?_, ?_, ?_, ?_⟩
          · simp only [htr]; decide
          · rw [htr]
            exact iff_of_true (by decide) hfail1
          · rw [htr]
            exact iff_of_false (by decide) (by rintro ⟨_, h⟩; rw [hfail2] at h; simp at h)
          · rw [htr]
            exact iff_of_false (by decide) (by rintro ⟨_, h, _⟩; rw [hfail2] at h; simp at h)
          · simp only [htr]; decide
          · intro _ h _ _; rw [hfail2] at h; simp at h
        | false =>
          have hfail2 : gpFailed (GpOutcome.res rc2 l2) = true := by rw [hf, hs2]; rfl
          cases a3 with
          | exn =>
            have htr : (gpGetControls (GpOutcome.res rc1 l1) (GpOutcome.res rc2 l2) GpOutcome.exn af batchFn singleFn).1 =
                [GpEvent.killGvfs, GpEvent.releaseUsb, GpEvent.diagnose, GpEvent.listAttempt 1,
             GpEvent.sleepSec 3, GpEvent.killGvfs, GpEvent.releaseUsb, GpEvent.diagnose,
             GpEvent.listAttempt 2, GpEvent.sleepSec 5, GpEvent.killGvfs,
             GpEvent.releaseUsb, GpEvent.diagnose, GpEvent.listAttempt 3] := by
              simp [gpGetControls, hs1, hs2]
            refine ⟨?_, ?_, ?_, ?_, ?_, ?_⟩
            · simp only [htr]; decide
            · rw [htr]
              exact iff_of_true (by decide) hfail1
            · rw [htr]
              exact iff_of_true (by decide) ⟨hfail1, hfail2⟩
            · rw [htr]
              exact iff_of_false (by decide) (by rintro ⟨_, _, h⟩; simp [gpFailed] at h)
            · simp only [htr]; decide
            · intro _ _ h _; simp [gpFailed] at h
          | res rc3 l3 =>
            cases hs3 : gpSuccess (GpOutcome.res rc3 l3) with
            | true =>
              have hfail3 : gpFailed (GpOutcome.res rc3 l3) = false := by rw [hf, hs3]; rfl
              have htr : (gpGetControls (GpOutcome.res rc1 l1) (GpOutcome.res rc2 l2) (GpOutcome.res rc3 l3) af batchFn singleFn).1 =
                  [GpEvent.killGvfs, GpEvent.releaseUsb, GpEvent.diagnose, GpEvent.listAttempt 1,
             GpEvent.sleepSec 3, GpEvent.killGvfs, GpEvent.releaseUsb, GpEvent.diagnose,
             GpEvent.listAttempt 2, GpEvent.sleepSec 5, GpEvent.killGvfs,
             GpEvent.releaseUsb, GpEvent.diagnose, GpEvent.listAttempt 3] := by
                simp [gpGetControls, hs1, hs2, hs3]
              refine ⟨?_, ?_, ?_, ?_, ?_, ?_⟩
              · simp only [htr]; decide
              · rw [htr]
                exact iff_of_true (by decide) hfail1
              · rw [htr]
                exact iff_of_true (by decide) ⟨hfail1, hfail2⟩
              · rw [htr]
                exact iff_of_false (by decide) (by rintro ⟨_, _, h⟩; rw [hfail3] at h; simp at h)
              · simp only [htr]; decide
              · intro _ _ h _; rw [hfail3] at h; simp at h
            | false =>
              have hfail3 : gpFailed (GpOutcome.res rc3 l3) = true := by rw [hf, hs3]; rfl
              cases af with
              | exn =>
                have htr : (gpGetControls (GpOutcome.res rc1 l1) (GpOutcome.res rc2 l2) (GpOutcome.res rc3 l3) GpOutcome.exn batchFn singleFn).1 =
                    [GpEvent.killGvfs, GpEvent.releaseUsb, GpEvent.diagnose, GpEvent.listAttempt 1,
             GpEvent.sleepSec 3, GpEvent.killGvfs, GpEvent.releaseUsb, GpEvent.diagnose,
             GpEvent.listAttempt 2, GpEvent.sleepSec 5, GpEvent.killGvfs,
             GpEvent.releaseUsb, GpEvent.diagnose, GpEvent.listAttempt 3,
             GpEvent.portRefresh, GpEvent.releaseUsb, GpEvent.diagnose,
             GpEvent.listAttempt 4] := by
                  simp [gpGetControls, hs1, hs2, hs3]
                refine ⟨?_, ?_, ?_, ?_, ?_, ?_⟩
                · simp only [htr]; decide
                · rw [htr]
                  exact iff_of_true (by decide) hfail1
                · rw [htr]
                  exact iff_of_true (by decide) ⟨hfail1, hfail2⟩
                · rw [htr]
                  exact iff_of_true (by decide) ⟨hfail1, hfail2, hfail3⟩
                · simp only [htr]; decide
                · intro _ _ _ _; simp [gpGetControls, hs1, hs2, hs3]
              | res rcf lf =>
                cases hsf : gpSuccess (GpOutcome.res rcf lf) with
                | true =>
                  have htr : (gpGetControls (GpOutcome.res rc1 l1) (GpOutcome.res rc2 l2) (GpOutcome.res rc3 l3) (GpOutcome.res rcf lf) batchFn singleFn).1 =
                      [GpEvent.killGvfs, GpEvent.releaseUsb, GpEvent.diagnose, GpEvent.listAttempt 1,
             GpEvent.sleepSec 3, GpEvent.killGvfs, GpEvent.releaseUsb, GpEvent.diagnose,
             GpEvent.listAttempt 2, GpEvent.sleepSec 5, GpEvent.killGvfs,
             GpEvent.releaseUsb, GpEvent.diagnose, GpEvent.listAttempt 3,
             GpEvent.portRefresh, GpEvent.releaseUsb, GpEvent.diagnose,
             GpEvent.listAttempt 4] := by
                    simp [gpGetControls, hs1, hs2, hs3, hsf]
                  refine ⟨?_, ?_, ?_, ?_, ?_, ?_⟩
                  · simp only [htr]; decide
                  · rw [htr]
                    exact iff_of_true (by decide) hfail1
                  · rw [htr]
                    exact iff_of_true (by decide) ⟨hfail1, hfail2⟩
                  · rw [htr]
                    exact iff_of_true (by decide) ⟨hfail1, hfail2, hfail3⟩
                  · simp only [htr]; decide
                  · intro _ _ _ hbad; simp [hsf] at hbad
                | false =>
                  have htr : (gpGetControls (GpOutcome.res rc1 l1) (GpOutcome.res rc2 l2) (GpOutcome.res rc3 l3) (GpOutcome.res rcf lf) batchFn singleFn).1 =
                      [GpEvent.killGvfs, GpEvent.releaseUsb, GpEvent.diagnose, GpEvent.listAttempt 1,
             GpEvent.sleepSec 3, GpEvent.killGvfs, GpEvent.releaseUsb, GpEvent.diagnose,
             GpEvent.listAttempt 2, GpEvent.sleepSec 5, GpEvent.killGvfs,
             GpEvent.releaseUsb, GpEvent.diagnose, GpEvent.listAttempt 3,
             GpEvent.portRefresh, GpEvent.releaseUsb, GpEvent.diagnose,
             GpEvent.listAttempt 4] := by
                    simp [gpGetControls, hs1, hs2, hs3, hsf]
                  refine ⟨?_, ?_, ?_, ?_, ?_, ?_⟩
                  · simp only [htr]; decide
                  · rw [htr]
                    exact iff_of_true (by decide) hfail1
                  · rw [htr]
                    exact iff_of_true (by decide) ⟨hfail1, hfail2⟩
                  · rw [htr]
                    exact iff_of_true (by decide) ⟨hfail1, hfail2, hfail3⟩
                  · simp only [htr]; decide
                  · intro _ _ _ _; simp [gpGetControls, hs1, hs2, hs3, hsf]

/-- Closed instance of `gp_retry_schedule`: with every attempt exiting
non-zero, the returned control list is empty. -/
theorem gp_retry_schedule_witness :
    (gpGetControls (GpOutcome.res false []) (GpOutcome.res false [])
      (GpOutcome.res false []) (GpOutcome.res false [])
      (fun _ => none) (fun _ => none)).2 = [] :=
  (gp_retry_schedule (GpOutcome.res false []) (GpOutcome.res false [])
      (GpOutcome.res false []) (GpOutcome.res false [])
      (fun _ => none) (fun _ => none)).2.2.2.2.2
    (by decide) (by decide) (by decide) (by decide)

/-! ## C7 / C8: V4L2 format auto-selection and source-descriptor building
(`src/core/backends/v4l2_backend.py`, `V4L2Backend._pick_best_format`,
`get_gst_source`, `_pw_gst_source`, `_v4l2_gst_source`)

`_pick_best_format` filters `camera.formats`, sorts the chosen candidate
list in place with `candidates.sort(key=lambda f: (f.width * f.height,
max(f.fps) if f.fps else 0), reverse=True)` — Python's stable sort, here
modelled by `List.insertionSort` on the reversed key order — and returns
`candidates[0]`.  In the fallback branch `candidates` *is* the
`camera.formats` list object, so the in-place sort reorders the caller's
list; `pickBestFormat` therefore returns the (possibly re-ordered) formats
list alongside the chosen format.  `get_gst_source` consults PipeWire
(`_find_pw_node_id`, an external query modelled as the `pwNode` argument of
the current state) and builds the descriptor string; the caps construction
is shared verbatim between `_pw_gst_source` and `_v4l2_gst_source` and is
factored into `gstSourceString`. -/

/-- `max(f.fps)` and the sort key's `max(f.fps) if f.fps else 0` (Python
`max` of a non-empty list; `0` for the empty list as in the key). -/
def pyMax : List ℚ → ℚ
  | [] => 0
  | x :: xs => xs.foldl max x

/-- The sort key `(f.width * f.height, max(f.fps) if f.fps else 0)`. -/
def fmtKey (f : VideoFormat) : Nat × ℚ := (f.width * f.height, pyMax f.fps)

/-- Python tuple comparison on keys: lexicographic. -/
def keyLE (p q : Nat × ℚ) : Prop := p.1 < q.1 ∨ (p.1 = q.1 ∧ p.2 ≤ q.2)

instance (p q : Nat × ℚ) : Decidable (keyLE p q) := by
  unfold keyLE; infer_instance

/-- The comparator realising `reverse=True`: `f` may precede `g` iff `f`'s
key is at least `g`'s. -/
def fmtGE (f g : VideoFormat) : Prop := keyLE (fmtKey g) (fmtKey f)

instance (f g : VideoFormat) : Decidable (fmtGE f g) := by
  unfold fmtGE; infer_instance

instance : IsTotal VideoFormat fmtGE := by
  constructor
  intro a b
  unfold fmtGE keyLE
  rcases Nat.lt_trichotomy (fmtKey a).1 (fmtKey b).1 with h | h | h
  · exact Or.inr (Or.inl h)
  · rcases le_total (fmtKey a).2 (fmtKey b).2 with h2 | h2
    · exact Or.inr (Or.inr ⟨h, h2⟩)
    · exact Or.inl (Or.inr ⟨h.symm, h2⟩)
  · exact Or.inl (Or.inl h)

instance : IsTrans VideoFormat fmtGE := by
  constructor
  intro a b c hab hbc
  unfold fmtGE keyLE at *
  rcases hab with h1 | ⟨h1, h1'⟩ <;> rcases hbc with h2 | ⟨h2, h2'⟩
  · exact Or.inl (Nat.lt_trans h2 h1)
  · exact Or.inl (h2 ▸ h1)
  · exact Or.inl (h1 ▸ h2)
  · exact Or.inr ⟨h2.trans h1, h2'.trans h1'⟩

/-- `candidates.sort(key=..., reverse=True)`: stable descending sort. -/
def sortFormatsDesc (l : List VideoFormat) : List VideoFormat :=
  l.insertionSort fmtGE

/-- The compressed-candidate filter
`f.pixel_format == "MJPG" and f.fps and max(f.fps) >= 25`. -/
def isGoodMjpeg (f : VideoFormat) : Bool :=
  f.pixelFormat == "MJPG" && !f.fps.isEmpty && decide ((25 : ℚ) ≤ pyMax f.fps)

/-- The uncompressed-candidate filter
`f.pixel_format != "MJPG" and f.fps and max(f.fps) >= 25`. -/
def isGoodRaw (f : VideoFormat) : Bool :=
  f.pixelFormat != "MJPG" && !f.fps.isEmpty && decide ((25 : ℚ) ≤ pyMax f.fps)

/-- `V4L2Backend._pick_best_format`.  Returns `candidates[0]` (or `None`
for an empty formats list) together with the formats list as left by the
call — re-ordered exactly in the fallback branch, where the sorted
`candidates` list is the `camera.formats` object itself. -/
def pickBestFormat (formats : List VideoFormat) :
    Option VideoFormat × List VideoFormat :=
  if formats.isEmpty then (none, formats)
  else
    let mjpeg := formats.filter isGoodMjpeg
    let raw := formats.filter isGoodRaw
    if !mjpeg.isEmpty then ((sortFormatsDesc mjpeg).head?, formats)
    else if !raw.isEmpty then ((sortFormatsDesc raw).head?, formats)
    else ((sortFormatsDesc formats).head?, sortFormatsDesc formats)

/-- The candidate set the claim describes: good compressed formats, else
good uncompressed ones, else everything. -/
def bestCandidates (formats : List VideoFormat) : List VideoFormat :=
  if !(formats.filter isGoodMjpeg).isEmpty then formats.filter isGoodMjpeg
  else if !(formats.filter isGoodRaw).isEmpty then formats.filter isGoodRaw
  else formats

/-- Python `int(q)`: truncation toward zero. -/
def pyInt (q : ℚ) : Int := q.num.tdiv (q.den : Int)

/-- `fmt` handed to `_pick_best_format` when the caller passed none. -/
def pickOf (formats : List VideoFormat) (fmt? : Option VideoFormat) :
    Option VideoFormat × List VideoFormat :=
  match fmt? with
  | some f => (some f, formats)
  | none => pickBestFormat formats

/-- The caps-string tail shared by `_pw_gst_source` and
`_v4l2_gst_source`: MJPG formats decode through `jpegdec`, raw formats get
`video/x-raw` caps; a frame rate is appended when the format lists any. -/
def gstSourceString (src : String) (fmt : Option VideoFormat) : String :=
  match fmt with
  | some f =>
    if f.pixelFormat == "MJPG" then
      let caps := "image/jpeg,width=" ++ toString f.width ++ ",height=" ++
        toString f.height
      let caps := if !f.fps.isEmpty then
          caps ++ ",framerate=" ++ toString (pyInt (pyMax f.fps)) ++ "/1"
        else caps
      src ++ " ! " ++ caps ++ " ! jpegdec"
    else
      let caps := "video/x-raw,width=" ++ toString f.width ++ ",height=" ++
        toString f.height
      let caps := if !f.fps.isEmpty then
          caps ++ ",framerate=" ++ toString (pyInt (pyMax f.fps)) ++ "/1"
        else caps
      src ++ " ! " ++ caps
  | none => src

/-- `V4L2Backend._pw_gst_source`. -/
def pwGstSource (nodeId : Int) (formats : List VideoFormat)
    (fmt? : Option VideoFormat) : String × List VideoFormat :=
  (gstSourceString ("pipewiresrc target-object=" ++ toString nodeId)
    (pickOf formats fmt?).1, (pickOf formats fmt?).2)

/-- `V4L2Backend._v4l2_gst_source`. -/
def v4l2GstSource (device : String) (formats : List VideoFormat)
    (fmt? : Option VideoFormat) : String × List VideoFormat :=
  (gstSourceString ("v4l2src device=" ++ device) (pickOf formats fmt?).1,
   (pickOf formats fmt?).2)

/-- `V4L2Backend.get_gst_source`: PipeWire node when registered there,
exclusive `v4l2src` otherwise.  Returns the descriptor string and the
camera as left by the call. -/
def getGstSource (pwNode : Option Int) (camera : CameraInfo)
    (fmt? : Option VideoFormat) : String × CameraInfo :=
  match pwNode with
  | some n =>
    ((pwGstSource n camera.formats fmt?).1,
     { camera with formats := (pwGstSource n camera.formats fmt?).2 })
  | none =>
    ((v4l2GstSource camera.devicePath camera.formats fmt?).1,
     { camera with formats := (v4l2GstSource camera.devicePath camera.formats fmt?).2 })

theorem sortFormatsDesc_perm (l : List VideoFormat) : List.Perm (sortFormatsDesc l) l :=
  List.perm_insertionSort fmtGE l

theorem sortFormatsDesc_head_max (l : List VideoFormat) (h : l ≠ []) :
    ∃ f, (sortFormatsDesc l).head? = some f ∧ f ∈ l ∧ ∀ g ∈ l, fmtGE f g := by
  have hperm := sortFormatsDesc_perm l
  have hsorted : List.Sorted fmtGE (sortFormatsDesc l) :=
    List.sorted_insertionSort fmtGE l
  cases hsort : sortFormatsDesc l with
  | nil =>
    exfalso
    rw [hsort] at hperm
    exact h (hperm.symm.eq_nil)
  | cons f rest =>
    refine ⟨f, rfl, ?_, ?_⟩
    · have : f ∈ sortFormatsDesc l := by rw [hsort]; exact List.mem_cons_self _ _
      exact hperm.mem_iff.mp this
    · intro g hg
      have hg' : g ∈ sortFormatsDesc l := hperm.mem_iff.mpr hg
      rw [hsort] at hg' hsorted
      rcases List.mem_cons.mp hg' with rfl | hg''
      · exact (total_of fmtGE g g).elim id id
      · exact List.rel_of_sorted_cons hsorted g hg''

theorem pickBestFormat_perm (formats : List VideoFormat) :
    List.Perm (pickBestFormat formats).2 formats := by
  by_cases h0 : formats.isEmpty
  · simp [pickBestFormat, h0]
  · by_cases hm : (formats.filter isGoodMjpeg).isEmpty
    · by_cases hr : (formats.filter isGoodRaw).isEmpty
      · simp [pickBestFormat, h0, hm, hr, sortFormatsDesc_perm]
      · simp [pickBestFormat, h0, hm, hr]
    · simp [pickBestFormat, h0, hm]

/-- C8.  For every camera with a non-empty formats list, the auto-selected
format exists and is a maximum of the candidate set — good compressed
formats when any exist, else good uncompressed ones, else all formats —
under the key `(resolution, max fps)` compared lexicographically
descending (the spec's "(resolution × fps)" sort key). -/
theorem pick_best_format_max (formats : List VideoFormat)
    (hne : formats ≠ []) :
    ∃ f, (pickBestFormat formats).1 = some f ∧ f ∈ bestCandidates formats ∧
      ∀ g ∈ bestCandidates formats, keyLE (fmtKey g) (fmtKey f) := by
  have h0 : formats.isEmpty = false := by
    cases formats
    · exact absurd rfl hne
    · rfl
  by_cases hm : (formats.filter isGoodMjpeg).isEmpty
  · by_cases hr : (formats.filter isGoodRaw).isEmpty
    · have hcand : bestCandidates formats = formats := by
        simp [bestCandidates, hm, hr]
      obtain ⟨f, hhead, hmem, hmax⟩ := sortFormatsDesc_head_max formats hne
      refine ⟨f, ?_, ?_, ?_⟩
      · simp [pickBestFormat, h0, hm, hr, hhead]
      · rw [hcand]; exact hmem
      · rw [hcand]; exact hmax
    · have hcand : bestCandidates formats = formats.filter isGoodRaw := by
        simp [bestCandidates, hm, hr]
      have hne' : formats.filter isGoodRaw ≠ [] := by
        intro hcontra
        rw [hcontra] at hr
        exact hr rfl
      obtain ⟨f, hhead, hmem, hmax⟩ :=
        sortFormatsDesc_head_max (formats.filter isGoodRaw) hne'
      refine ⟨f, ?_, ?_, ?_⟩
      · simp [pickBestFormat, h0, hm, hr, hhead]
      · rw [hcand]; exact hmem
      · rw [hcand]; exact hmax
  · have hcand : bestCandidates formats = formats.filter isGoodMjpeg := by
      simp [bestCandidates, hm]
    have hne' : formats.filter isGoodMjpeg ≠ [] := by
      intro hcontra
      rw [hcontra] at hm
      exact hm rfl
    obtain ⟨f, hhead, hmem, hmax⟩ :=
      sortFormatsDesc_head_max (formats.filter isGoodMjpeg) hne'
    refine ⟨f, ?_, ?_, ?_⟩
    · simp [pickBestFormat, h0, hm, hhead]
    · rw [hcand]; exact hmem
    · rw [hcand]; exact hmax

/-- Closed instance of `pick_best_format_max` on a two-format camera. -/
theorem pick_best_format_max_witness :
    ∃ f, (pickBestFormat
        [{ width := 1280, height := 720, fps := [(30 : ℚ)], pixelFormat := "MJPG" },
         { width := 640, height := 480, fps := [(30 : ℚ)], pixelFormat := "MJPG" }]).1 =
      some f ∧
    f ∈ bestCandidates
        [{ width := 1280, height := 720, fps := [(30 : ℚ)], pixelFormat := "MJPG" },
         { width := 640, height := 480, fps := [(30 : ℚ)], pixelFormat := "MJPG" }] ∧
    ∀ g ∈ bestCandidates
        [{ width := 1280, height := 720, fps := [(30 : ℚ)], pixelFormat := "MJPG" },
         { width := 640, height := 480, fps := [(30 : ℚ)], pixelFormat := "MJPG" }],
      keyLE (fmtKey g) (fmtKey f) :=
  pick_best_format_max _ (by simp)

theorem pickBestFormat_idem (formats : List VideoFormat) :
    pickBestFormat (pickBestFormat formats).2 = pickBestFormat formats := by
  by_cases h0 : formats.isEmpty
  · have hnil : formats = [] := by
      cases formats
      · rfl
      · exact absurd h0 (by simp)
    subst hnil
    rfl
  · by_cases hm : (formats.filter isGoodMjpeg).isEmpty
    · by_cases hr : (formats.filter isGoodRaw).isEmpty
      · have hsnd : (pickBestFormat formats).2 = sortFormatsDesc formats := by
          simp [pickBestFormat, h0, hm, hr]
        have hperm := sortFormatsDesc_perm formats
        have hs0 : (sortFormatsDesc formats).isEmpty = false := by
          cases hsf : sortFormatsDesc formats with
          | nil =>
            exfalso
            rw [hsf] at hperm
            have : formats = [] := hperm.symm.eq_nil
            rw [this] at h0
            exact h0 (by simp)
          | cons f rest => rfl
        have hmnil : formats.filter isGoodMjpeg = [] := by
          cases hc : formats.filter isGoodMjpeg with
          | nil => rfl
          | cons x xs => rw [hc] at hm; simp at hm
        have hrnil : formats.filter isGoodRaw = [] := by
          cases hc : formats.filter isGoodRaw with
          | nil => rfl
          | cons x xs => rw [hc] at hr; simp at hr
        have hmf : (sortFormatsDesc formats).filter isGoodMjpeg = [] := by
          have hpf : List.Perm ((sortFormatsDesc formats).filter isGoodMjpeg)
              (formats.filter isGoodMjpeg) := hperm.filter _
          rw [hmnil] at hpf
          exact hpf.eq_nil
        have hrf : (sortFormatsDesc formats).filter isGoodRaw = [] := by
          have hpf : List.Perm ((sortFormatsDesc formats).filter isGoodRaw)
              (formats.filter isGoodRaw) := hperm.filter _
          rw [hrnil] at hpf
          exact hpf.eq_nil
        have hfix : sortFormatsDesc (sortFormatsDesc formats) = sortFormatsDesc formats :=
          (List.sorted_insertionSort fmtGE formats).insertionSort_eq
        rw [hsnd]
        simp [pickBestFormat, h0, hm, hr, hs0, hmf, hrf, hfix]
      · have hsnd : (pickBestFormat formats).2 = formats := by
          simp [pickBestFormat, h0, hm, hr]
        rw [hsnd]
    · have hsnd : (pickBestFormat formats).2 = formats := by
        simp [pickBestFormat, h0, hm]
      rw [hsnd]

theorem pickOf_perm (formats : List VideoFormat) (fmt? : Option VideoFormat) :
    List.Perm (pickOf formats fmt?).2 formats := by
  cases fmt? with
  | some f => exact List.Perm.refl _
  | none => exact pickBestFormat_perm formats

theorem pickOf_idem (formats : List VideoFormat) (fmt? : Option VideoFormat) :
    pickOf (pickOf formats fmt?).2 fmt? = pickOf formats fmt? := by
  cases fmt? with
  | some f => rfl
  | none => simp [pickOf, pickBestFormat_idem]

/-- C7 (amended).  `get_gst_source` leaves every field of the `CameraInfo`
unchanged except possibly the *order* of its formats list (the in-place
sort of the fallback branch; the contents are preserved as a permutation),
and it is idempotent in the resulting state: calling it again returns the
same descriptor string and changes nothing further — so any two calls in
the same state return the same string. -/
theorem get_gst_source_pure_up_to_reorder (pwNode : Option Int)
    (camera : CameraInfo) (fmt? : Option VideoFormat) :
    List.Perm ((getGstSource pwNode camera fmt?).2.formats) camera.formats ∧
    (getGstSource pwNode camera fmt?).2.id = camera.id ∧
    (getGstSource pwNode camera fmt?).2.name = camera.name ∧
    (getGstSource pwNode camera fmt?).2.backend = camera.backend ∧
    (getGstSource pwNode camera fmt?).2.devicePath = camera.devicePath ∧
    (getGstSource pwNode camera fmt?).2.capabilities = camera.capabilities ∧
    (getGstSource pwNode camera fmt?).2.isVirtual = camera.isVirtual ∧
    (getGstSource pwNode camera fmt?).2.extra = camera.extra ∧
    getGstSource pwNode (getGstSource pwNode camera fmt?).2 fmt? =
      getGstSource pwNode camera fmt? := by
  cases pwNode with
  | some n =>
    refine ⟨?_, rfl, rfl, rfl, rfl, rfl, rfl, rfl, ?_⟩
    · exact pickOf_perm camera.formats fmt?
    · show getGstSource (some n)
        { camera with formats := (pwGstSource n camera.formats fmt?).2 } fmt? = _
      simp only [getGstSource, pwGstSource, pickOf_idem]
  | none =>
    refine ⟨?_, rfl, rfl, rfl, rfl, rfl, rfl, rfl, ?_⟩
    · exact pickOf_perm camera.formats fmt?
    · show getGstSource none
        { camera with formats := (v4l2GstSource camera.devicePath camera.formats fmt?).2 }
        fmt? = _
      simp only [getGstSource, v4l2GstSource, pickOf_idem]

/-- Closed instance of `get_gst_source_pure_up_to_reorder`: the resulting
formats list is always a permutation of the original. -/
theorem get_gst_source_pure_up_to_reorder_witness :
    List.Perm ((getGstSource none
      { id := "v4l2:/dev/video1", name := "Cam", backend := BackendType.v4l2,
        devicePath := "/dev/video1",
        formats := [{ width := 1280, height := 720, fps := [(30 : ℚ)],
                       pixelFormat := "MJPG" }] } none).2.formats)
      [{ width := 1280, height := 720, fps := [(30 : ℚ)], pixelFormat := "MJPG" }] :=
  (get_gst_source_pure_up_to_reorder none _ none).1

/-- A 640×480 YUYV format at 10 fps (below the 25 fps bar). -/
def cexFmtA : VideoFormat :=
  { width := 640, height := 480, fps := [(10 : ℚ)], pixelFormat := "YUYV" }

/-- A 1920×1080 YUYV format at 10 fps (below the 25 fps bar). -/
def cexFmtB : VideoFormat :=
  { width := 1920, height := 1080, fps := [(10 : ℚ)], pixelFormat := "YUYV" }

/-- A webcam whose formats all miss the 25 fps bar, listed
smallest-resolution first. -/
def cexCamera : CameraInfo :=
  { id := "v4l2:/dev/video0", name := "USB Camera", backend := BackendType.v4l2,
    devicePath := "/dev/video0", capabilities := ["video", "controls", "photo"],
    formats := [cexFmtA, cexFmtB] }

/-- C7 counterexample.  With no PipeWire node and no explicit format,
`get_gst_source` on `cexCamera` does *not* leave the `CameraInfo` argument
unchanged: the fallback branch of `_pick_best_format` sorts
`camera.formats` in place, reordering it from `[A, B]` to `[B, A]`. -/
theorem get_gst_source_reorders_formats :
    (getGstSource none cexCamera none).2 ≠ cexCamera ∧
    (getGstSource none cexCamera none).2.formats = [cexFmtB, cexFmtA] ∧
    cexCamera.formats = [cexFmtA, cexFmtB] := by
  refine ⟨?_, ?_, rfl⟩
  · decide
  · decide

end Bigcam
